import Mathlib

/-!
Shallow embedding of `src/ext/utilrb/utilrb.cc`, a small native extension
for the Ruby runtime.  The C file defines two functions,
`kernel_is_immediate` and `kernel_crash`, and an entry point
`Init_utilrb` that registers them as singleton methods on `Kernel` and
delegates to the external initializer `Init_value_set`.
-/

/-- Ruby `VALUE` references are machine words; we model them as `Nat`. -/
abbrev VALUE := Nat

/-- The runtime's false reference (`Qfalse` is the word 0 in MRI). -/
def Qfalse : VALUE := 0

/-- The runtime's true reference (`Qtrue` is the word 2 in MRI). -/
def Qtrue : VALUE := 2

/-- The runtime's nil reference (`Qnil` is the word 4 in MRI). -/
def Qnil : VALUE := 4

/-- `static VALUE kernel_is_immediate(VALUE klass, VALUE object)
    { return IMMEDIATE_P(object) ? Qtrue : Qfalse; }`

The host primitive `IMMEDIATE_P` is supplied by `ruby.h`, not by this
repository, so it is taken as an abstract boolean classifier. -/
def kernel_is_immediate (IMMEDIATE_P : VALUE → Bool) (klass object : VALUE) : VALUE :=
  if IMMEDIATE_P object then Qtrue else Qfalse

/-- Process memory: a word store together with the set of addresses the
process may legally write (address 0 is unmapped in any hosting OS). -/
structure Mem where
  mapped : Nat → Bool
  contents : Nat → Int

/-- Store an `int` through a pointer.  Writing an unmapped address is a
fatal memory-access fault, modelled as `none`. -/
def writeInt (m : Mem) (addr : Nat) (v : Int) : Option Mem :=
  if m.mapped addr then
    some { m with contents := fun a => if a = addr then v else m.contents a }
  else
    none

/-- `static VALUE kernel_crash(VALUE klass)
    { *((int*)0) = 10; return Qfalse; }`

The body stores 10 through the null pointer; only if that store succeeds
does control reach the `return Qfalse` statement. -/
def kernel_crash (m : Mem) (klass : VALUE) : Option (Mem × VALUE) :=
  match writeInt m 0 10 with
  | none => none
  | some m2 => some (m2, Qfalse)

/-- Execution of `kernel_is_immediate` in the same fallible, memory-threading
model as `kernel_crash`: its body performs no memory access, only the
pure conditional on the host primitive. -/
def run_kernel_is_immediate (IMMEDIATE_P : VALUE → Bool) (m : Mem)
    (klass object : VALUE) : Option (Mem × VALUE) :=
  some (m, kernel_is_immediate IMMEDIATE_P klass object)

/-- The two native callables of this unit that can be registered. -/
inductive MethodFn where
  | fn_kernel_crash
  | fn_kernel_is_immediate
deriving DecidableEq, Repr

/-- One entry of the host's global method table: receiver namespace,
method name, native function, declared arity. -/
structure MethodEntry where
  receiver : String
  name : String
  fn : MethodFn
  arity : Nat
deriving DecidableEq, Repr

/-- Observable ABI calls made by this unit, in order. -/
inductive Event where
  | defineModule (name : String)
  | defineSingletonMethod (receiver name : String) (fn : MethodFn) (arity : Nat)
  | callValueSet
deriving DecidableEq, Repr

/-- The host interpreter state visible to this unit, plus the trace of ABI
calls and the unit's single static variable `mUtilrb`. -/
structure UnitState where
  modules : List String
  methods : List MethodEntry
  trace : List Event
  mUtilrb : VALUE
deriving Repr

/-- Reference returned for the `n`-th defined module: a word-aligned heap
address (module objects are heap values, never immediates). -/
def moduleValueOf (n : Nat) : VALUE := 8 * (n + 1)

/-- `rb_define_module(name)`: registers a global module and returns its
reference. -/
def rb_define_module (st : UnitState) (name : String) : UnitState × VALUE :=
  ({ st with
      modules := st.modules ++ [name]
      trace := st.trace ++ [Event.defineModule name] },
   moduleValueOf st.modules.length)

/-- `rb_define_singleton_method(recv, name, fn, arity)`: appends an entry
to the host's global method table. -/
def rb_define_singleton_method (st : UnitState) (receiver name : String)
    (fn : MethodFn) (arity : Nat) : UnitState :=
  { st with
      methods := st.methods ++ [⟨receiver, name, fn, arity⟩]
      trace := st.trace ++ [Event.defineSingletonMethod receiver name fn arity] }

/-- Marks the delegation to the external `Init_value_set` on the trace. -/
def recordValueSetCall (st : UnitState) : UnitState :=
  { st with trace := st.trace ++ [Event.callValueSet] }

/-- `extern "C" void Init_utilrb()`:

    mUtilrb = rb_define_module("Utilrb");
    rb_define_singleton_method(rb_mKernel, "crash!", RUBY_METHOD_FUNC(kernel_crash), 0);
    rb_define_singleton_method(rb_mKernel, "immediate?", RUBY_METHOD_FUNC(kernel_is_immediate), 1);
    Init_value_set();

`Init_value_set` lives in a different compilation unit, so it is taken as
an abstract state transformer `ivs`. -/
def Init_utilrb (ivs : UnitState → UnitState) (st : UnitState) : UnitState :=
  let p := rb_define_module st "Utilrb"
  let st1 := { p.1 with mUtilrb := p.2 }
  let st2 := rb_define_singleton_method st1 "Kernel" "crash!" MethodFn.fn_kernel_crash 0
  let st3 := rb_define_singleton_method st2 "Kernel" "immediate?" MethodFn.fn_kernel_is_immediate 1
  ivs (recordValueSetCall st3)

/-- The method-table entry registered for `crash!`. -/
def crashEntry : MethodEntry := ⟨"Kernel", "crash!", MethodFn.fn_kernel_crash, 0⟩

/-- The method-table entry registered for `immediate?`. -/
def immediateEntry : MethodEntry := ⟨"Kernel", "immediate?", MethodFn.fn_kernel_is_immediate, 1⟩

/-- Claim C1: for every value reference, `kernel_is_immediate` returns the
runtime's true value exactly when the host primitive `IMMEDIATE_P`
classifies that reference as immediate, and the false value otherwise. -/
theorem kernel_is_immediate_agrees_with_host (IMMEDIATE_P : VALUE → Bool)
    (klass object : VALUE) :
    (kernel_is_immediate IMMEDIATE_P klass object = Qtrue ↔ IMMEDIATE_P object = true) ∧
    (kernel_is_immediate IMMEDIATE_P klass object = Qfalse ↔ IMMEDIATE_P object = false) := by
  unfold kernel_is_immediate Qtrue Qfalse
  cases h : IMMEDIATE_P object <;> simp

/-- Claim C4: `kernel_is_immediate` always returns exactly `Qtrue` or
`Qfalse`, never `Qnil` or any other value. -/
theorem kernel_is_immediate_boolean (IMMEDIATE_P : VALUE → Bool)
    (klass object : VALUE) :
    (kernel_is_immediate IMMEDIATE_P klass object = Qtrue ∨
      kernel_is_immediate IMMEDIATE_P klass object = Qfalse) ∧
    kernel_is_immediate IMMEDIATE_P klass object ≠ Qnil := by
  unfold kernel_is_immediate Qtrue Qfalse Qnil
  cases h : IMMEDIATE_P object <;> simp

/-- Claim C5: `kernel_is_immediate` is total: in the fallible execution
model it always produces a result and never takes the fault path. -/
theorem run_kernel_is_immediate_total (IMMEDIATE_P : VALUE → Bool) (m : Mem)
    (klass object : VALUE) :
    (run_kernel_is_immediate IMMEDIATE_P m klass object).isSome = true := rfl

/-- Claim C6: `kernel_is_immediate` is pure: it returns with memory exactly
as it was, and its value is nothing but the branch on the host
primitive's result. -/
theorem run_kernel_is_immediate_pure (IMMEDIATE_P : VALUE → Bool) (m : Mem)
    (klass object : VALUE) :
    run_kernel_is_immediate IMMEDIATE_P m klass object =
      some (m, if IMMEDIATE_P object then Qtrue else Qfalse) := rfl

/-- Claim C8: the result of `kernel_is_immediate` depends only on the
queried object, not on the receiver argument. -/
theorem kernel_is_immediate_ignores_receiver (IMMEDIATE_P : VALUE → Bool)
    (klass1 klass2 object : VALUE) :
    kernel_is_immediate IMMEDIATE_P klass1 object =
      kernel_is_immediate IMMEDIATE_P klass2 object := rfl

/-- Claim C2: whenever the null address is unmapped, `kernel_crash` ends in
a fatal memory-access fault and never returns normally to its caller. -/
theorem kernel_crash_always_faults (m : Mem) (klass : VALUE)
    (h : m.mapped 0 = false) : kernel_crash m klass = none := by
  unfold kernel_crash writeInt
  simp [h]

/-- A memory with no mapped pages at all; in particular address 0 faults. -/
def memUnmapped : Mem := { mapped := fun _ => false, contents := fun _ => 0 }

/-- Witness for claim C2 at a concrete memory and receiver. -/
theorem kernel_crash_always_faults_witness :
    memUnmapped.mapped 0 = false ∧ kernel_crash memUnmapped Qnil = none :=
  ⟨rfl, kernel_crash_always_faults memUnmapped Qnil rfl⟩

/-- Claim C7: in an execution model where the null store does not fault,
`kernel_crash` returns exactly `Qfalse`. -/
theorem kernel_crash_returns_qfalse_without_fault (m : Mem) (klass : VALUE)
    (h : m.mapped 0 = true) :
    (kernel_crash m klass).map Prod.snd = some Qfalse := by
  unfold kernel_crash writeInt
  simp [h]

/-- A memory where every address is mapped, so the null store succeeds. -/
def memAllMapped : Mem := { mapped := fun _ => true, contents := fun _ => 0 }

/-- Witness for claim C7 at a concrete memory and receiver. -/
theorem kernel_crash_returns_qfalse_without_fault_witness :
    memAllMapped.mapped 0 = true ∧
    (kernel_crash memAllMapped Qnil).map Prod.snd = some Qfalse :=
  ⟨rfl, kernel_crash_returns_qfalse_without_fault memAllMapped Qnil rfl⟩

/-- Claim C3: `Init_utilrb` performs exactly these ABI steps in order:
define the global module "Utilrb", register `crash!` (arity 0) and then
`immediate?` (arity 1) as Kernel singleton methods, and finally delegate
to the external `Init_value_set`. -/
theorem Init_utilrb_steps (ivs : UnitState → UnitState) (st : UnitState) :
    ∃ st', Init_utilrb ivs st = ivs st' ∧
      st'.trace = st.trace ++
        [Event.defineModule "Utilrb",
         Event.defineSingletonMethod "Kernel" "crash!" MethodFn.fn_kernel_crash 0,
         Event.defineSingletonMethod "Kernel" "immediate?" MethodFn.fn_kernel_is_immediate 1,
         Event.callValueSet] := by
  refine ⟨_, rfl, ?_⟩
  simp [rb_define_module, rb_define_singleton_method, recordValueSetCall]

/-- Claim C9: this unit registers exactly the two Kernel entries, adds no
method on the Utilrb module, creates exactly that module, and stores
its reference in the static `mUtilrb`. -/
theorem Init_utilrb_frame (ivs : UnitState → UnitState) (st : UnitState) :
    ∃ st', Init_utilrb ivs st = ivs st' ∧
      st'.methods = st.methods ++ [crashEntry, immediateEntry] ∧
      (∀ e, e ∈ st'.methods → e ∉ st.methods → e.receiver = "Kernel") ∧
      st'.modules = st.modules ++ ["Utilrb"] ∧
      st'.mUtilrb = moduleValueOf st.modules.length := by
  refine ⟨_, rfl, ?_, ?_, ?_, ?_⟩ <;>
    simp [rb_define_module, rb_define_singleton_method, recordValueSetCall,
      crashEntry, immediateEntry]
  intro e he hne
  rcases he with he | he | he
  · exact absurd he hne
  · rw [he]
  · rw [he]
